import Mathlib

/-!
Verification of the configuration resolution and persistence subsystem of
claude-code-webui (`src/backend/utils/config-manager.ts` and
`src/backend/handlers/config.ts`).

The TypeScript code is shallowly embedded as follows:
- JSON documents (the payloads of `JSON.parse` / `JSON.stringify`) are the
  inductive type `Json`; `parseJson` models `JSON.parse` (returning `none`
  where `JSON.parse` throws) and `stringifyUserConfig` models
  `JSON.stringify(config, null, 2)` applied to the user-config object built
  in `handleSaveConfig` (property insertion order `useSystemDefaults`,
  `apiKey`, `baseUrl`, `model`; `undefined`-valued properties omitted).
- The user config file `~/.claude-webui/config.json` is modeled as a state
  of type `Option String`: `none` when the file does not exist (the ENOENT
  branch) and `some data` for its textual content.
- TypeScript `string | undefined` fields become `Option String`; the
  JavaScript `||` fallback on such values (where both `undefined` and the
  empty string are falsy) becomes `jsOrStr` / `jsOrOpt`.
- Every fallible operation is total: branches where the code catches an
  exception and degrades are explicit match arms.
-/

/-- JSON values, as produced by `JSON.parse`. Numbers keep their source
lexeme (no arithmetic is ever performed on them in the embedded code);
objects keep their member list in source order (duplicate keys are kept,
and lookup takes the last occurrence, matching JavaScript semantics). -/
inductive Json where
  | null
  | bool (b : Bool)
  | num (raw : String)
  | str (s : String)
  | arr (elems : List Json)
  | obj (fields : List (String × Json))

/-- JSON insignificant whitespace characters. -/
def isWsChar (c : Char) : Bool :=
  c = ' ' || c = '\t' || c = '\n' || c = '\r'

/-- Drop leading JSON whitespace. -/
def skipWs : List Char → List Char
  | [] => []
  | c :: cs => if isWsChar c then skipWs cs else c :: cs

/-- Value of a hexadecimal digit. -/
def hexVal (c : Char) : Option Nat :=
  if '0' ≤ c ∧ c ≤ '9' then some (c.toNat - '0'.toNat)
  else if 'a' ≤ c ∧ c ≤ 'f' then some (c.toNat - 'a'.toNat + 10)
  else if 'A' ≤ c ∧ c ≤ 'F' then some (c.toNat - 'A'.toNat + 10)
  else none

/-- Parse exactly four hexadecimal digits (the payload of a `\u` escape). -/
def parseHex4 : List Char → Option (Nat × List Char)
  | a :: b :: c :: d :: rest =>
    match hexVal a, hexVal b, hexVal c, hexVal d with
    | some x, some y, some z, some w => some ((((x * 16 + y) * 16 + z) * 16 + w), rest)
    | _, _, _, _ => none
  | _ => none

/-- Decode one JSON string escape, given the character after the backslash
and the remaining input. -/
def decodeEscape : Char → List Char → Option (Char × List Char)
  | '"', rest => some ('"', rest)
  | '\\', rest => some ('\\', rest)
  | '/', rest => some ('/', rest)
  | 'b', rest => some ('\x08', rest)
  | 'f', rest => some ('\x0c', rest)
  | 'n', rest => some ('\n', rest)
  | 'r', rest => some ('\x0d', rest)
  | 't', rest => some ('\t', rest)
  | 'u', rest =>
    match parseHex4 rest with
    | some (n, rest') => some (Char.ofNat n, rest')
    | none => none
  | _, _ => none

/-- Parse the body of a JSON string (the opening quote already consumed),
returning the decoded characters and the input after the closing quote.
The fuel decreases once per decoded character; `fuel > number of decoded
characters` always suffices. Raw control characters are rejected, as in
`JSON.parse`. -/
def parseJString : Nat → List Char → Option (List Char × List Char)
  | 0, _ => none
  | _ + 1, [] => none
  | fuel + 1, c :: cs =>
    if c = '"' then some ([], cs)
    else if c = '\\' then
      match cs with
      | [] => none
      | e :: cs' =>
        match decodeEscape e cs' with
        | some (d, cs'') =>
          match parseJString fuel cs'' with
          | some (s, rest) => some (d :: s, rest)
          | none => none
        | none => none
    else if c.toNat < 32 then none
    else
      match parseJString fuel cs with
      | some (s, rest) => some (c :: s, rest)
      | none => none

/-- Consume an exact literal character sequence. -/
def dropLit : List Char → List Char → Option (List Char)
  | [], cs => some cs
  | p :: ps, c :: cs => if c = p then dropLit ps cs else none
  | _ :: _, [] => none

/-- Longest prefix of decimal digits, and the rest. -/
def takeDigits : List Char → List Char × List Char
  | [] => ([], [])
  | c :: cs =>
    if c.isDigit then
      let p := takeDigits cs
      (c :: p.1, p.2)
    else ([], c :: cs)

/-- Integer part of a JSON number: `0`, or a nonzero digit followed by
digits (JSON forbids leading zeros). -/
def parseIntPart : List Char → Option (List Char × List Char)
  | [] => none
  | c :: cs =>
    if c = '0' then some (['0'], cs)
    else if c.isDigit then
      let p := takeDigits cs
      some (c :: p.1, p.2)
    else none

/-- Optional fraction part of a JSON number. -/
def parseFracPart : List Char → Option (List Char × List Char)
  | '.' :: cs =>
    match takeDigits cs with
    | ([], _) => none
    | (ds, r) => some ('.' :: ds, r)
  | cs => some ([], cs)

/-- Optional exponent part of a JSON number. -/
def parseExpPart : List Char → Option (List Char × List Char)
  | [] => some ([], [])
  | c :: cs =>
    if c = 'e' ∨ c = 'E' then
      match cs with
      | '+' :: cs' =>
        match takeDigits cs' with
        | ([], _) => none
        | (ds, r) => some (c :: '+' :: ds, r)
      | '-' :: cs' =>
        match takeDigits cs' with
        | ([], _) => none
        | (ds, r) => some (c :: '-' :: ds, r)
      | cs' =>
        match takeDigits cs' with
        | ([], _) => none
        | (ds, r) => some (c :: ds, r)
    else some ([], c :: cs)

/-- Lex a JSON number, returning its lexeme. -/
def parseNumber (cs : List Char) : Option (List Char × List Char) :=
  let signed : List Char × List Char :=
    match cs with
    | '-' :: r => (['-'], r)
    | _ => ([], cs)
  match parseIntPart signed.2 with
  | none => none
  | some (ip, r1) =>
    match parseFracPart r1 with
    | none => none
    | some (fp, r2) =>
      match parseExpPart r2 with
      | none => none
      | some (ep, r3) => some (signed.1 ++ ip ++ fp ++ ep, r3)

mutual

/-- Parse one JSON value from the input (leading whitespace already
skipped). The fuel bounds the combined nesting depth and member count;
`parseJson` supplies `input length + 1`, which always suffices because
every unit of fuel spent is preceded by at least one consumed character. -/
def parseValue : Nat → List Char → Option (Json × List Char)
  | 0, _ => none
  | fuel + 1, cs =>
    match cs with
    | [] => none
    | c :: rest =>
      if c = '"' then
        match parseJString (rest.length + 1) rest with
        | some (s, r) => some (Json.str (String.mk s), r)
        | none => none
      else if c = '\x7b' then
        match skipWs rest with
        | '\x7d' :: r2 => some (Json.obj [], r2)
        | r' => parseObjectBody fuel [] r'
      else if c = '[' then
        match skipWs rest with
        | ']' :: r2 => some (Json.arr [], r2)
        | r' => parseArrayBody fuel [] r'
      else if c = 't' then
        match dropLit ['r', 'u', 'e'] rest with
        | some r => some (Json.bool true, r)
        | none => none
      else if c = 'f' then
        match dropLit ['a', 'l', 's', 'e'] rest with
        | some r => some (Json.bool false, r)
        | none => none
      else if c = 'n' then
        match dropLit ['u', 'l', 'l'] rest with
        | some r => some (Json.null, r)
        | none => none
      else if c = '-' ∨ c.isDigit then
        match parseNumber (c :: rest) with
        | some (ds, r) => some (Json.num (String.mk ds), r)
        | none => none
      else none

/-- Parse the members of a nonempty JSON object (everything after the
opening brace and leading whitespace), accumulating parsed members. -/
def parseObjectBody : Nat → List (String × Json) → List Char → Option (Json × List Char)
  | 0, _, _ => none
  | fuel + 1, acc, cs =>
    match cs with
    | '"' :: r =>
      match parseJString (r.length + 1) r with
      | some (k, r1) =>
        match skipWs r1 with
        | ':' :: r2 =>
          match parseValue fuel (skipWs r2) with
          | some (v, r3) =>
            match skipWs r3 with
            | ',' :: r4 => parseObjectBody fuel (acc ++ [(String.mk k, v)]) (skipWs r4)
            | '\x7d' :: r4 => some (Json.obj (acc ++ [(String.mk k, v)]), r4)
            | _ => none
          | none => none
        | _ => none
      | none => none
    | _ => none

/-- Parse the elements of a nonempty JSON array (everything after the
opening bracket and leading whitespace). -/
def parseArrayBody : Nat → List Json → List Char → Option (Json × List Char)
  | 0, _, _ => none
  | fuel + 1, acc, cs =>
    match parseValue fuel cs with
    | some (v, r) =>
      match skipWs r with
      | ',' :: r2 => parseArrayBody fuel (acc ++ [v]) (skipWs r2)
      | ']' :: r2 => some (Json.arr (acc ++ [v]), r2)
      | _ => none
    | none => none

end

/-- Model of `JSON.parse`: `none` exactly where `JSON.parse` throws.
Trailing non-whitespace input is an error, as in JavaScript. -/
def parseJson (s : String) : Option Json :=
  match parseValue (s.data.length + 1) (skipWs s.data) with
  | some (j, rest) => if (skipWs rest).isEmpty then some j else none
  | none => none

/-- Lowercase hexadecimal digit, as emitted by `JSON.stringify` in `\u00xx`
escapes. -/
def hexDigit (n : Nat) : Char :=
  if n < 10 then Char.ofNat ('0'.toNat + n) else Char.ofNat ('a'.toNat + n - 10)

/-- Escape one character the way `JSON.stringify` quotes string contents:
quote and backslash get a backslash escape, the named control characters
use their short escapes, all other control characters use `\u00xx` with
lowercase hex, and everything else is emitted literally. -/
def escChar (c : Char) : List Char :=
  if c = '"' then ['\\', '"']
  else if c = '\\' then ['\\', '\\']
  else if c = '\x08' then ['\\', 'b']
  else if c = '\t' then ['\\', 't']
  else if c = '\n' then ['\\', 'n']
  else if c = '\x0c' then ['\\', 'f']
  else if c = '\x0d' then ['\\', 'r']
  else if c.toNat < 32 then
    ['\\', 'u', '0', '0', hexDigit (c.toNat / 16), hexDigit (c.toNat % 16)]
  else [c]

/-- Escape a character sequence for inclusion in a JSON string literal. -/
def escList : List Char → List Char
  | [] => []
  | c :: cs => escChar c ++ escList cs

/-- Render a quoted JSON string literal. -/
def quoteL (s : String) : List Char :=
  '"' :: (escList s.data ++ ['"'])

/-- Render a scalar JSON value (the only values `saveUserConfig` ever
writes are booleans and strings; other constructors are unreachable
there). -/
def renderScalarL : Json → List Char
  | Json.bool true => ['t', 'r', 'u', 'e']
  | Json.bool false => ['f', 'a', 'l', 's', 'e']
  | Json.str s => quoteL s
  | _ => []

/-- Render one object member at `JSON.stringify(_, null, 2)`'s single
indentation level: two spaces, the quoted key, a colon and a space, the
value. -/
def renderFieldL (kv : String × Json) : List Char :=
  ' ' :: ' ' :: (quoteL kv.1 ++ ':' :: ' ' :: renderScalarL kv.2)

/-- Render an object member list, members separated by a comma and a
newline. -/
def renderFieldsL : List (String × Json) → List Char
  | [] => []
  | [kv] => renderFieldL kv
  | kv :: next :: rest => renderFieldL kv ++ ',' :: '\n' :: renderFieldsL (next :: rest)

/-- User configuration (`UserConfig` in `config-manager.ts`), as stored in
`~/.claude-webui/config.json`. Optional TypeScript fields become
`Option String`. -/
structure UserConfig where
  apiKey : Option String
  baseUrl : Option String
  model : Option String
  useSystemDefaults : Bool
deriving DecidableEq, Repr

/-- System configuration (`SystemConfig` in `config-manager.ts`), the
narrow view extracted from `~/.claude/settings.json`. -/
structure SystemConfig where
  apiKey : Option String
  baseUrl : Option String
  model : Option String
deriving DecidableEq, Repr

/-- Effective configuration (`EffectiveConfig` in `config-manager.ts`):
every field always populated. -/
structure EffectiveConfig where
  apiKey : String
  baseUrl : String
  model : String
deriving DecidableEq, Repr

/-- JavaScript `a || b` where `a : string | undefined` and `b : string`:
both `undefined` and the empty string are falsy. -/
def jsOrStr (a : Option String) (b : String) : String :=
  match a with
  | some s => if s = "" then b else s
  | none => b

/-- JavaScript `a || b` where both operands are `string | undefined`. -/
def jsOrOpt (a b : Option String) : Option String :=
  match a with
  | some s => if s = "" then b else some s
  | none => b

/-- JavaScript double negation `!!a` for `a : string | undefined`. -/
def jsTruthyStr (a : Option String) : Bool :=
  match a with
  | some s => s ≠ ""
  | none => false

/-- Built-in defaults (`DEFAULT_CONFIG` in `config-manager.ts`). -/
structure DefaultConfig where
  baseUrl : String
  model : String

/-- The `DEFAULT_CONFIG` constant of `config-manager.ts`. -/
def DEFAULT_CONFIG : DefaultConfig :=
  { baseUrl := "https://api.anthropic.com"
    model := "claude-sonnet-4-20250514" }

/-- The pure core of `ConfigManager.getEffectiveConfig`, applied to the
already-loaded user config (or `none` when the file is absent or
unreadable) and system config. Mirrors the three branches of the source:
`userConfig?.useSystemDefaults`, then `userConfig && !userConfig.useSystemDefaults`,
then the no-user-config fallthrough. -/
def getEffectiveConfig (userConfig : Option UserConfig) (systemConfig : SystemConfig) :
    EffectiveConfig :=
  match userConfig with
  | some uc =>
    if uc.useSystemDefaults then
      { apiKey := jsOrStr systemConfig.apiKey ""
        baseUrl := jsOrStr systemConfig.baseUrl DEFAULT_CONFIG.baseUrl
        model := jsOrStr systemConfig.model DEFAULT_CONFIG.model }
    else
      { apiKey := jsOrStr uc.apiKey (jsOrStr systemConfig.apiKey "")
        baseUrl := jsOrStr uc.baseUrl DEFAULT_CONFIG.baseUrl
        model := jsOrStr uc.model DEFAULT_CONFIG.model }
  | none =>
    { apiKey := jsOrStr systemConfig.apiKey ""
      baseUrl := jsOrStr systemConfig.baseUrl DEFAULT_CONFIG.baseUrl
      model := jsOrStr systemConfig.model DEFAULT_CONFIG.model }

/-- The `ConfigManager.maskApiKey` method. Note `if (!apiKey) return undefined`
is taken by both `undefined` and the (falsy) empty string. -/
def maskApiKey (apiKey : Option String) : Option String :=
  match apiKey with
  | none => none
  | some s =>
    if s = "" then none
    else if s.length ≤ 10 then some "***"
    else some (s.take 7 ++ "..." ++ s.drop (s.length - 3))

/-- Drop leading whitespace characters. -/
def dropLeadingWs : List Char → List Char
  | [] => []
  | c :: cs => if c.isWhitespace then dropLeadingWs cs else c :: cs

/-- JavaScript `String.prototype.trim()`: remove leading and trailing
whitespace. -/
def jsTrim (s : String) : String :=
  String.mk ((dropLeadingWs (dropLeadingWs s.data).reverse).reverse)

/-- The blank-credential test `!key || key.trim() === ""` shared by the
validation in `handleSaveConfig` and by `ConfigManager.testConfig`. -/
def isBlankKey (a : Option String) : Bool :=
  match a with
  | none => true
  | some s => s = "" || jsTrim s = ""

/-- The JSON member list of the object `handleSaveConfig` passes to
`saveUserConfig`, in its property insertion order (`useSystemDefaults`,
`apiKey`, `baseUrl`, `model`); `undefined`-valued properties are omitted
by `JSON.stringify`. -/
def userConfigJsonFields (c : UserConfig) : List (String × Json) :=
  ("useSystemDefaults", Json.bool c.useSystemDefaults) ::
    ((match c.apiKey with
      | some s => [("apiKey", Json.str s)]
      | none => []) ++
     (match c.baseUrl with
      | some s => [("baseUrl", Json.str s)]
      | none => []) ++
     (match c.model with
      | some s => [("model", Json.str s)]
      | none => []))

/-- Character-level rendering of `JSON.stringify(config, null, 2)` for a
user config object. -/
def stringifyUserConfigL (c : UserConfig) : List Char :=
  '\x7b' :: '\n' :: (renderFieldsL (userConfigJsonFields c) ++ ['\n', '\x7d'])

/-- The exact text `ConfigManager.saveUserConfig` writes to
`~/.claude-webui/config.json`. -/
def stringifyUserConfig (c : UserConfig) : String :=
  String.mk (stringifyUserConfigL c)

/-- The `ConfigManager.saveUserConfig` method, as a transformer of the
user-config file state: after the temp-file write and atomic rename, the
canonical file holds exactly the serialized config, whatever it held
before. -/
def saveUserConfig (config : UserConfig) (_st : Option String) : Option String :=
  some (stringifyUserConfig config)

/-- The `ConfigManager.getUserConfig` method over the file state. Returns
the `JSON.parse` result (the TypeScript code only casts it, without
validation) paired with a flag recording whether the failure-to-read
warning was logged: a missing file returns `(none, false)` (info log), a
file that fails to parse returns `(none, true)` (warning log). -/
def getUserConfig (st : Option String) : Option Json × Bool :=
  match st with
  | none => (none, false)
  | some data =>
    match parseJson data with
    | some j => (some j, false)
    | none => (none, true)

/-- Read a member of a JSON object; on JavaScript objects built by
`JSON.parse`, a duplicated key keeps its last occurrence, and property
access on a non-object JSON value yields `undefined`. -/
def jsonLookup (j : Json) (k : String) : Option Json :=
  match j with
  | Json.obj fs => fs.foldl (fun acc p => if p.1 = k then some p.2 else acc) none
  | _ => none

/-- Coerce a JSON value read from a field typed `boolean` in TypeScript. -/
def asBool : Json → Option Bool
  | Json.bool b => some b
  | _ => none

/-- Coerce a JSON value read from a field typed `string` in TypeScript. -/
def asString : Json → Option String
  | Json.str s => some s
  | _ => none

/-- Reading the fields of a parsed user-config document through the
TypeScript `as UserConfig` cast, for documents that match the declared
interface (an object with a boolean `useSystemDefaults`; present
non-string optional fields fall outside the interface and are treated as
absent). -/
def userConfigOfJson (j : Json) : Option UserConfig :=
  match (jsonLookup j "useSystemDefaults").bind asBool with
  | some b =>
    some { useSystemDefaults := b
           apiKey := (jsonLookup j "apiKey").bind asString
           baseUrl := (jsonLookup j "baseUrl").bind asString
           model := (jsonLookup j "model").bind asString }
  | none => none

/-- Digits of the mantissa of a JSON number lexeme (everything before any
exponent marker). -/
def jsonNumIsZero (raw : String) : Bool :=
  (raw.data.takeWhile (fun c => c ≠ 'e' ∧ c ≠ 'E')).all
    (fun c => !c.isDigit || c = '0')

/-- JavaScript truthiness of a parsed JSON value. -/
def jsonTruthy : Json → Bool
  | Json.null => false
  | Json.bool b => b
  | Json.num raw => !jsonNumIsZero raw
  | Json.str s => s ≠ ""
  | Json.arr _ => true
  | Json.obj _ => true

/-- The `settings.env || {}` step of `ConfigManager.getSystemConfig`. -/
def envOf (settings : Json) : Json :=
  match jsonLookup settings "env" with
  | some e => if jsonTruthy e then e else Json.obj []
  | none => Json.obj []

/-- Read a string-valued entry of the `env` object. Entries holding
non-string JSON values fall outside the `SystemConfig` interface and are
treated as absent. -/
def envStr (env : Json) (k : String) : Option String :=
  match jsonLookup env k with
  | some (Json.str s) => some s
  | _ => none

/-- The `ConfigManager.getSystemConfig` method over the external
`~/.claude/settings.json` file state: a missing file and a file that
fails to parse both degrade to the empty config, otherwise the recognized
environment keys are extracted with their `||` precedences. -/
def getSystemConfig (st : Option String) : SystemConfig :=
  match st with
  | none => { apiKey := none, baseUrl := none, model := none }
  | some data =>
    match parseJson data with
    | none => { apiKey := none, baseUrl := none, model := none }
    | some settings =>
      let env := envOf settings
      { apiKey := jsOrOpt (envStr env "ANTHROPIC_AUTH_TOKEN") (envStr env "ANTHROPIC_API_KEY")
        baseUrl := envStr env "ANTHROPIC_BASE_URL"
        model := jsOrOpt (envStr env "ANTHROPIC_MODEL") (envStr env "ANTHROPIC_DEFAULT_SONNET_MODEL") }

/-- The `ConfigManager.testConfig` method: structural validation only. -/
def testConfig (apiKey : Option String) : Bool :=
  !(isBlankKey apiKey)

/-- Response shape of `GET /api/config` (`UserConfigResponse`). -/
structure UserConfigResponse where
  useSystemDefaults : Bool
  apiKey : Option String
  baseUrl : Option String
  model : Option String
deriving DecidableEq, Repr

/-- Response shape of `GET /api/config/system` (`SystemConfigResponse`);
the handler never writes an `apiKey` member into it. -/
structure SystemConfigResponse where
  hasSystemConfig : Bool
  baseUrl : Option String
  model : Option String
deriving DecidableEq, Repr

/-- Request body of `POST /api/config` (`SaveConfigRequest`). -/
structure SaveConfigRequest where
  useSystemDefaults : Bool
  apiKey : Option String
  baseUrl : Option String
  model : Option String
deriving DecidableEq, Repr

/-- Outcome of `handleSaveConfig`: a 400 rejection with its error message,
or a 200 response with the saved config (masked key). -/
inductive SaveConfigResult where
  | rejected (error : String)
  | saved (resp : UserConfigResponse)
deriving DecidableEq, Repr

/-- The `handleGetConfig` handler of `handlers/config.ts`, applied to the
already-loaded user config and system config. -/
def handleGetConfig (userConfig : Option UserConfig) (systemConfig : SystemConfig) :
    UserConfigResponse :=
  match userConfig with
  | none =>
    { useSystemDefaults := true
      apiKey := maskApiKey systemConfig.apiKey
      baseUrl := systemConfig.baseUrl
      model := systemConfig.model }
  | some uc =>
    { useSystemDefaults := uc.useSystemDefaults
      apiKey := maskApiKey uc.apiKey
      baseUrl := uc.baseUrl
      model := uc.model }

/-- The `handleSaveConfig` handler of `handlers/config.ts`, over the
user-config file state: validation happens before any write, and a
rejection leaves the state untouched. -/
def handleSaveConfig (body : SaveConfigRequest) (st : Option String) :
    SaveConfigResult × Option String :=
  if !body.useSystemDefaults && isBlankKey body.apiKey then
    (SaveConfigResult.rejected "API key is required", st)
  else
    let userConfig : UserConfig :=
      { useSystemDefaults := body.useSystemDefaults
        apiKey := body.apiKey
        baseUrl := body.baseUrl
        model := body.model }
    let st' := saveUserConfig userConfig st
    (SaveConfigResult.saved
      { useSystemDefaults := userConfig.useSystemDefaults
        apiKey := maskApiKey userConfig.apiKey
        baseUrl := userConfig.baseUrl
        model := userConfig.model }, st')

/-- The `handleGetSystemConfig` handler of `handlers/config.ts`:
`hasSystemConfig` is `!!systemConfig.apiKey`, and the response has no
`apiKey` member at all. -/
def handleGetSystemConfig (systemConfig : SystemConfig) : SystemConfigResponse :=
  { hasSystemConfig := jsTruthyStr systemConfig.apiKey
    baseUrl := systemConfig.baseUrl
    model := systemConfig.model }

/-- Unfold `jsOrStr` into an if-then-else over `Option.getD`, the form in
which the claims speak about blank-or-absent fallback. -/
theorem jsOrStr_eq_ite (a : Option String) (b : String) :
    jsOrStr a b = if a.getD "" ≠ "" then a.getD "" else b := by
  cases a with
  | none => simp [jsOrStr]
  | some s => by_cases hs : s = "" <;> simp [jsOrStr, hs]

/-- A fallback chain with a nonempty final default is nonempty. -/
theorem jsOrStr_ne_empty (a : Option String) (b : String) (hb : b ≠ "") :
    jsOrStr a b ≠ "" := by
  cases a with
  | none => simpa [jsOrStr] using hb
  | some s => by_cases hs : s = "" <;> simp [jsOrStr, hs, hb]

/-- Claim C1: with `useSystemDefaults = false`, `getEffectiveConfig` takes the
user apiKey when nonempty, else the system apiKey when nonempty, else the
empty string; baseUrl and model take the user value when nonempty and
otherwise fall straight to the built-in default; and the result depends on
the system config only through its apiKey (the system baseUrl and model
are never consulted in this branch). -/
theorem getEffectiveConfig_custom_branch (uc : UserConfig) (sc : SystemConfig)
    (h : uc.useSystemDefaults = false) :
    (getEffectiveConfig (some uc) sc).apiKey =
      (if uc.apiKey.getD "" ≠ "" then uc.apiKey.getD ""
       else if sc.apiKey.getD "" ≠ "" then sc.apiKey.getD "" else "") ∧
    (getEffectiveConfig (some uc) sc).baseUrl =
      (if uc.baseUrl.getD "" ≠ "" then uc.baseUrl.getD "" else DEFAULT_CONFIG.baseUrl) ∧
    (getEffectiveConfig (some uc) sc).model =
      (if uc.model.getD "" ≠ "" then uc.model.getD "" else DEFAULT_CONFIG.model) ∧
    ∀ sc' : SystemConfig, sc'.apiKey = sc.apiKey →
      getEffectiveConfig (some uc) sc' = getEffectiveConfig (some uc) sc := by
  refine ⟨?_, ?_, ?_, ?_⟩
  · simp [getEffectiveConfig, h, jsOrStr_eq_ite]
  · simp [getEffectiveConfig, h, jsOrStr_eq_ite]
  · simp [getEffectiveConfig, h, jsOrStr_eq_ite]
  · intro sc' hsc'
    simp [getEffectiveConfig, h, hsc']

/-- Closed instance of C1: a user config that opted out of system defaults
with a blank baseUrl resolves its baseUrl to the built-in default, not to
the system baseUrl. -/
theorem getEffectiveConfig_custom_branch_witness :
    (getEffectiveConfig
        (some { apiKey := some "user-key", baseUrl := none, model := none,
                useSystemDefaults := false })
        { apiKey := some "sys-key", baseUrl := some "https://sys.example",
          model := some "sys-model" }).baseUrl = "https://api.anthropic.com" := by
  simpa using
    (getEffectiveConfig_custom_branch
      { apiKey := some "user-key", baseUrl := none, model := none,
        useSystemDefaults := false }
      { apiKey := some "sys-key", baseUrl := some "https://sys.example",
        model := some "sys-model" } rfl).2.1

/-- Claim C2: with `useSystemDefaults = true` the resolution coincides with the
no-user-config resolution — so the apiKey/baseUrl/model fields of the user
config never influence the result — and that common result is the system
apiKey or empty string, and the system baseUrl/model or the built-in
defaults. -/
theorem getEffectiveConfig_system_branch (uc : UserConfig) (sc : SystemConfig)
    (h : uc.useSystemDefaults = true) :
    getEffectiveConfig (some uc) sc = getEffectiveConfig none sc ∧
    (getEffectiveConfig none sc).apiKey = sc.apiKey.getD "" ∧
    (getEffectiveConfig none sc).baseUrl =
      (if sc.baseUrl.getD "" ≠ "" then sc.baseUrl.getD "" else DEFAULT_CONFIG.baseUrl) ∧
    (getEffectiveConfig none sc).model =
      (if sc.model.getD "" ≠ "" then sc.model.getD "" else DEFAULT_CONFIG.model) := by
  refine ⟨?_, ?_, ?_, ?_⟩
  · simp [getEffectiveConfig, h]
  · cases hk : sc.apiKey with
    | none => simp [getEffectiveConfig, jsOrStr, hk]
    | some s =>
      by_cases hs : s = "" <;> simp [getEffectiveConfig, jsOrStr, hk, hs]
  · simp [getEffectiveConfig, jsOrStr_eq_ite]
  · simp [getEffectiveConfig, jsOrStr_eq_ite]

/-- Closed instance of C2: a user config carrying its own apiKey, baseUrl
and model but with `useSystemDefaults = true` resolves exactly as if no
user config existed. -/
theorem getEffectiveConfig_system_branch_witness :
    getEffectiveConfig
        (some { apiKey := some "user-key", baseUrl := some "https://user.example",
                model := some "user-model", useSystemDefaults := true })
        { apiKey := some "sys-key", baseUrl := none, model := none } =
      getEffectiveConfig none
        { apiKey := some "sys-key", baseUrl := none, model := none } := by
  exact (getEffectiveConfig_system_branch
    { apiKey := some "user-key", baseUrl := some "https://user.example",
      model := some "user-model", useSystemDefaults := true }
    { apiKey := some "sys-key", baseUrl := none, model := none } rfl).1

/-- Claim C4: for every user config (present or absent) and every system config,
the resolved baseUrl and model are nonempty, while the apiKey can
legitimately come out empty. -/
theorem getEffectiveConfig_defaults_nonempty (u : Option UserConfig) (sc : SystemConfig) :
    (getEffectiveConfig u sc).baseUrl ≠ "" ∧
    (getEffectiveConfig u sc).model ≠ "" ∧
    ∃ u' sc', (getEffectiveConfig u' sc').apiKey = "" := by
  have hb : DEFAULT_CONFIG.baseUrl ≠ "" := by decide
  have hm : DEFAULT_CONFIG.model ≠ "" := by decide
  refine ⟨?_, ?_, ⟨none, { apiKey := none, baseUrl := none, model := none }, rfl⟩⟩
  · match u with
    | none => exact jsOrStr_ne_empty _ _ hb
    | some uc =>
      by_cases h : uc.useSystemDefaults <;>
        simp only [getEffectiveConfig, h, if_true, if_false] <;>
        exact jsOrStr_ne_empty _ _ hb
  · match u with
    | none => exact jsOrStr_ne_empty _ _ hm
    | some uc =>
      by_cases h : uc.useSystemDefaults <;>
        simp only [getEffectiveConfig, h, if_true, if_false] <;>
        exact jsOrStr_ne_empty _ _ hm

/-- Counterexample to C3 as stated: the empty string is a secret string of
length at most 10, yet `maskApiKey` does not return the fixed placeholder
for it — the `if (!apiKey) return undefined` guard also swallows the
(falsy) empty string, so the result is absent. -/
theorem maskApiKey_empty_not_placeholder :
    ("" : String).length ≤ 10 ∧
    maskApiKey (some "") ≠ some "***" ∧
    maskApiKey (some "") = none := by
  refine ⟨by decide, by decide, rfl⟩

/-- Claim C3 as amended: `maskApiKey` maps an absent input to an absent output and
the empty string also to an absent output; every nonempty secret of length
at most 10 maps to the fixed placeholder `***` (revealing neither length
nor any character); and every secret of length greater than 10 maps to its
first 7 characters, the `...` marker, and its last 3 characters. -/
theorem maskApiKey_spec (k : Option String) :
    (k = none → maskApiKey k = none) ∧
    (∀ s, k = some s → s = "" → maskApiKey k = none) ∧
    (∀ s, k = some s → s ≠ "" → s.length ≤ 10 → maskApiKey k = some "***") ∧
    (∀ s, k = some s → 10 < s.length →
      maskApiKey k = some (s.take 7 ++ "..." ++ s.drop (s.length - 3))) := by
  refine ⟨?_, ?_, ?_, ?_⟩
  · rintro rfl; rfl
  · rintro s rfl rfl; rfl
  · rintro s rfl hs hlen
    simp [maskApiKey, hs, hlen]
  · rintro s rfl hlen
    have hs : s ≠ "" := by
      intro h
      rw [h] at hlen
      simp at hlen
    have h10 : ¬ s.length ≤ 10 := by omega
    simp [maskApiKey, hs, h10]

/-- Closed instance of the amended C3: a 17-character secret is masked to
its first 7 characters, the ellipsis marker, and its last 3 characters. -/
theorem maskApiKey_spec_witness :
    maskApiKey (some "sk-ant-1234567890") = some "sk-ant-...890" := by
  have h := (maskApiKey_spec (some "sk-ant-1234567890")).2.2.2
    "sk-ant-1234567890" rfl (by decide)
  simpa using h

/-- Claim C5: a save request that opts out of system defaults with an absent or
blank (empty after trimming) apiKey is rejected with the validation
message before any write, and the on-disk user config file state is
returned unchanged. -/
theorem handleSaveConfig_rejects_blank_key (body : SaveConfigRequest) (st : Option String)
    (h : body.useSystemDefaults = false)
    (hk : body.apiKey = none ∨ ∃ s, body.apiKey = some s ∧ jsTrim s = "") :
    handleSaveConfig body st = (SaveConfigResult.rejected "API key is required", st) := by
  have hblank : isBlankKey body.apiKey = true := by
    rcases hk with hnone | ⟨s, hs, htrim⟩
    · simp [isBlankKey, hnone]
    · simp [isBlankKey, hs, htrim]
  simp [handleSaveConfig, h, hblank]

/-- Closed instance of C5: saving `useSystemDefaults = false` with the
empty apiKey is rejected and leaves an existing file untouched. -/
theorem handleSaveConfig_rejects_blank_key_witness :
    handleSaveConfig
        { useSystemDefaults := false, apiKey := some "", baseUrl := none, model := none }
        (some "old-content") =
      (SaveConfigResult.rejected "API key is required", some "old-content") := by
  exact handleSaveConfig_rejects_blank_key
    { useSystemDefaults := false, apiKey := some "", baseUrl := none, model := none }
    (some "old-content") rfl (Or.inr ⟨"", rfl, by decide⟩)

/-- Claim C7: the system-config summary reports `hasSystemConfig = true` exactly
when a nonempty system credential is present, and the response depends on
the credential only through that truthiness — two system configs whose
credentials are both present-and-nonempty, or both absent-or-empty,
produce identical responses, so the credential value itself never appears
in the response. -/
theorem handleGetSystemConfig_hides_secret (sc : SystemConfig) :
    ((handleGetSystemConfig sc).hasSystemConfig = true ↔
      ∃ s, sc.apiKey = some s ∧ s ≠ "") ∧
    (∀ k k' : Option String, jsTruthyStr k = jsTruthyStr k' →
      handleGetSystemConfig { sc with apiKey := k } =
        handleGetSystemConfig { sc with apiKey := k' }) := by
  constructor
  · cases hk : sc.apiKey with
    | none => simp [handleGetSystemConfig, jsTruthyStr, hk]
    | some s => simp [handleGetSystemConfig, jsTruthyStr, hk]
  · intro k k' htruth
    simp [handleGetSystemConfig, htruth]

/-- Closed instance of C7: replacing one nonempty system credential by
another leaves the summary response unchanged, and the summary reports a
credential was found. -/
theorem handleGetSystemConfig_hides_secret_witness :
    handleGetSystemConfig
        { apiKey := some "sk-real-secret", baseUrl := some "https://sys.example",
          model := none } =
      handleGetSystemConfig
        { apiKey := some "x", baseUrl := some "https://sys.example", model := none } := by
  exact (handleGetSystemConfig_hides_secret
    { apiKey := some "sk-real-secret", baseUrl := some "https://sys.example",
      model := none }).2 (some "sk-real-secret") (some "x") (by decide)

/-- Claim C8: `saveUserConfig` is idempotent on the persisted file content —
saving the same config twice leaves the canonical file byte-identical to
its state after the first save (the written text is a function of the
config alone). -/
theorem saveUserConfig_idempotent (config : UserConfig) (st : Option String) :
    saveUserConfig config (saveUserConfig config st) = saveUserConfig config st := rfl

/-- Claim C10: with no user config, `handleGetConfig` reports no error and no
empty result: it answers `useSystemDefaults = true`, the system baseUrl
and model verbatim, and the system credential passed through `maskApiKey`
rather than raw. -/
theorem handleGetConfig_no_user_config (sc : SystemConfig) :
    handleGetConfig none sc =
      { useSystemDefaults := true
        apiKey := maskApiKey sc.apiKey
        baseUrl := sc.baseUrl
        model := sc.model } := rfl

/-- Claim C6: loading never raises. `getUserConfig` answers absent-without-warning
for a missing file and absent-with-a-logged-warning for an unparseable
file; `getSystemConfig` answers the empty config (every field absent) for
a missing file, for an unparseable file, and for a parseable file whose
env object carries none of the five recognized keys. -/
theorem config_load_graceful (s t : String) (j : Json)
    (hs : parseJson s = none)
    (ht : parseJson t = some j)
    (hk : jsonLookup (envOf j) "ANTHROPIC_AUTH_TOKEN" = none ∧
          jsonLookup (envOf j) "ANTHROPIC_API_KEY" = none ∧
          jsonLookup (envOf j) "ANTHROPIC_BASE_URL" = none ∧
          jsonLookup (envOf j) "ANTHROPIC_MODEL" = none ∧
          jsonLookup (envOf j) "ANTHROPIC_DEFAULT_SONNET_MODEL" = none) :
    getUserConfig none = (none, false) ∧
    getUserConfig (some s) = (none, true) ∧
    getSystemConfig none = { apiKey := none, baseUrl := none, model := none } ∧
    getSystemConfig (some s) = { apiKey := none, baseUrl := none, model := none } ∧
    getSystemConfig (some t) = { apiKey := none, baseUrl := none, model := none } := by
  obtain ⟨h1, h2, h3, h4, h5⟩ := hk
  refine ⟨rfl, ?_, rfl, ?_, ?_⟩
  · simp [getUserConfig, hs]
  · simp [getSystemConfig, hs]
  · simp [getSystemConfig, ht, envStr, h1, h2, h3, h4, h5, jsOrOpt]

/-- Closed instance of C6: the unparseable text `not json` degrades to "no
user config" with a warning and to the empty system config, and the
parseable-but-keyless document degrades to the empty system config. -/
theorem config_load_graceful_witness :
    getUserConfig (some "not json") = (none, true) ∧
    getSystemConfig (some "not json") = { apiKey := none, baseUrl := none, model := none } ∧
    getSystemConfig (some "\x7b\"env\": \x7b\x7d\x7d") =
      { apiKey := none, baseUrl := none, model := none } := by
  have h := config_load_graceful "not json" "\x7b\"env\": \x7b\x7d\x7d"
    (Json.obj [("env", Json.obj [])]) rfl rfl ⟨rfl, rfl, rfl, rfl, rfl⟩
  exact ⟨h.2.1, h.2.2.2.1, h.2.2.2.2⟩

/-- Decoding a serializer-emitted hex digit recovers its value. -/
theorem hexVal_hexDigit : ∀ n, n < 16 → hexVal (hexDigit n) = some n := by decide

/-- Escaping never shortens a character sequence. -/
theorem escList_length_le (s : List Char) : s.length ≤ (escList s).length := by
  induction s with
  | nil => simp [escList]
  | cons c s ih =>
    have h1 : 1 ≤ (escChar c).length := by
      unfold escChar
      repeat' split
      all_goals simp
    simp only [escList, List.length_append, List.length_cons]
    omega

/-- Correctness of JSON string-body parsing on serializer output: parsing
the escaped form of any character sequence, followed by the closing quote,
recovers the sequence exactly and consumes through the quote. -/
theorem parseJString_escAppend (s : List Char) :
    ∀ (fuel : Nat) (rest : List Char), s.length < fuel →
      parseJString fuel (escList s ++ '"' :: rest) = some (s, rest) := by
  induction s with
  | nil =>
    intro fuel rest h
    obtain ⟨f, rfl⟩ : ∃ f, fuel = f + 1 := ⟨fuel - 1, by omega⟩
    simp [escList, parseJString]
  | cons c s ih =>
    intro fuel rest h
    obtain ⟨f, rfl⟩ : ∃ f, fuel = f + 1 := ⟨fuel - 1, by omega⟩
    have hf : s.length < f := by simp only [List.length_cons] at h; omega
    have hrec := ih f rest hf
    by_cases h1 : c = '"'
    · subst h1; simp [escList, escChar, parseJString, decodeEscape, hrec]
    · by_cases h2 : c = '\\'
      · subst h2; simp [escList, escChar, parseJString, decodeEscape, hrec]
      · by_cases h3 : c = '\x08'
        · subst h3; simp [escList, escChar, parseJString, decodeEscape, hrec]
        · by_cases h4 : c = '\t'
          · subst h4; simp [escList, escChar, parseJString, decodeEscape, hrec]
          · by_cases h5 : c = '\n'
            · subst h5; simp [escList, escChar, parseJString, decodeEscape, hrec]
            · by_cases h6 : c = '\x0c'
              · subst h6; simp [escList, escChar, parseJString, decodeEscape, hrec]
              · by_cases h7 : c = '\x0d'
                · subst h7; simp [escList, escChar, parseJString, decodeEscape, hrec]
                · by_cases h8 : c.toNat < 32
                  · have hdiv : c.toNat / 16 < 16 := by omega
                    have hmod : c.toNat % 16 < 16 := by omega
                    have e1 := hexVal_hexDigit _ hdiv
                    have e2 := hexVal_hexDigit _ hmod
                    have hval : c.toNat / 16 * 16 + c.toNat % 16 = c.toNat := by omega
                    have e0 : hexVal '0' = some 0 := rfl
                    simp only [escList, escChar, parseJString, decodeEscape, parseHex4,
                      h1, h2, h3, h4, h5, h6, h7, h8, if_false, if_true, List.cons_append,
                      e0, e1, e2, if_pos, if_neg, List.nil_append]
                    simp [parseJString, decodeEscape, parseHex4, e0, e1, e2, hrec, hval,
                      Char.ofNat_toNat]
                  · simp [escList, escChar, parseJString,
                      h1, h2, h3, h4, h5, h6, h7, h8, hrec]

/-- Consuming a literal that prefixes the input leaves the rest. -/
theorem dropLit_append (p : List Char) : ∀ r, dropLit p (p ++ r) = some r := by
  induction p with
  | nil => intro r; rfl
  | cons c p ih => intro r; simp [dropLit, ih]

/-- The JSON values `saveUserConfig` writes: booleans and strings. -/
def scalarJson (j : Json) : Prop :=
  (∃ b, j = Json.bool b) ∨ (∃ s, j = Json.str s)

/-- One-step unfolding of `parseValue` at a string opening quote. -/
theorem parseValue_str_step (f : Nat) (r : List Char) :
    parseValue (f + 1) ('"' :: r) =
      match parseJString (r.length + 1) r with
      | some (s, rest) => some (Json.str (String.mk s), rest)
      | none => none := rfl

/-- One-step unfolding of `parseValue` at the `true` keyword. -/
theorem parseValue_true_step (f : Nat) (r : List Char) :
    parseValue (f + 1) ('t' :: r) =
      match dropLit ['r', 'u', 'e'] r with
      | some rest => some (Json.bool true, rest)
      | none => none := rfl

/-- One-step unfolding of `parseValue` at the `false` keyword. -/
theorem parseValue_false_step (f : Nat) (r : List Char) :
    parseValue (f + 1) ('f' :: r) =
      match dropLit ['a', 'l', 's', 'e'] r with
      | some rest => some (Json.bool false, rest)
      | none => none := rfl

/-- One-step unfolding of `parseValue` at an opening brace. -/
theorem parseValue_obj_step (f : Nat) (r : List Char) :
    parseValue (f + 1) ('\x7b' :: r) =
      (match skipWs r with
       | '\x7d' :: r2 => some (Json.obj [], r2)
       | r' => parseObjectBody f [] r') := rfl

/-- One-step unfolding of `parseObjectBody` at a member key's opening
quote. -/
theorem parseObjectBody_step (f : Nat) (acc : List (String × Json)) (r : List Char) :
    parseObjectBody (f + 1) acc ('"' :: r) =
      (match parseJString (r.length + 1) r with
       | some (k, r1) =>
         match skipWs r1 with
         | ':' :: r2 =>
           match parseValue f (skipWs r2) with
           | some (v, r3) =>
             match skipWs r3 with
             | ',' :: r4 => parseObjectBody f (acc ++ [(String.mk k, v)]) (skipWs r4)
             | '\x7d' :: r4 => some (Json.obj (acc ++ [(String.mk k, v)]), r4)
             | _ => none
           | none => none
         | _ => none
       | none => none) := rfl

/-- Parsing a rendered scalar value recovers it. -/
theorem parseValue_renderScalar (v : Json) (hv : scalarJson v) (fuel : Nat)
    (hfuel : 1 ≤ fuel) (tail : List Char) :
    parseValue fuel (renderScalarL v ++ tail) = some (v, tail) := by
  obtain ⟨f, rfl⟩ : ∃ f, fuel = f + 1 := ⟨fuel - 1, by omega⟩
  rcases hv with ⟨b, rfl⟩ | ⟨s, rfl⟩
  · cases b
    · show parseValue (f + 1) ('f' :: ('a' :: 'l' :: 's' :: 'e' :: tail)) = _
      rw [parseValue_false_step]
      have : dropLit ['a', 'l', 's', 'e'] (['a', 'l', 's', 'e'] ++ tail) = some tail :=
        dropLit_append _ _
      simpa using this ▸ rfl
    · show parseValue (f + 1) ('t' :: ('r' :: 'u' :: 'e' :: tail)) = _
      rw [parseValue_true_step]
      have : dropLit ['r', 'u', 'e'] (['r', 'u', 'e'] ++ tail) = some tail :=
        dropLit_append _ _
      simpa using this ▸ rfl
  · have hassoc : renderScalarL (Json.str s) ++ tail =
        '"' :: (escList s.data ++ '"' :: tail) := by
      simp [renderScalarL, quoteL, List.append_assoc]
    rw [hassoc, parseValue_str_step]
    rw [parseJString_escAppend s.data _ tail
      (by have := escList_length_le s.data; simp only [List.length_append]; omega)]

/-- A rendered scalar starts with a non-whitespace character. -/
theorem skipWs_renderScalar (v : Json) (hv : scalarJson v) (tail : List Char) :
    skipWs (renderScalarL v ++ tail) = renderScalarL v ++ tail := by
  rcases hv with ⟨b, rfl⟩ | ⟨s, rfl⟩
  · cases b <;> simp [renderScalarL, skipWs, isWsChar]
  · simp [renderScalarL, quoteL, skipWs, isWsChar]

/-- What follows a rendered member: the closing text directly for the last
member, or a comma, a newline and the remaining members. -/
def fieldSep : List (String × Json) → List Char → List Char
  | [], tail => tail
  | kv :: rest, tail => ',' :: '\n' :: (renderFieldsL (kv :: rest) ++ tail)

/-- Unfold the first member out of a rendered member list. -/
theorem renderFields_cons_append (kv : String × Json) (fs : List (String × Json))
    (tail : List Char) :
    renderFieldsL (kv :: fs) ++ tail = renderFieldL kv ++ fieldSep fs tail := by
  cases fs with
  | nil => simp [renderFieldsL, fieldSep]
  | cons next rest => simp [renderFieldsL, fieldSep, List.append_assoc]

/-- Whitespace-skipping a rendered member consumes exactly its two-space
indentation. -/
theorem skipWs_renderField (kv : String × Json) (tail : List Char) :
    skipWs (renderFieldL kv ++ tail) =
      quoteL kv.1 ++ ':' :: ' ' :: (renderScalarL kv.2 ++ tail) := by
  simp [renderFieldL, quoteL, skipWs, isWsChar, List.append_assoc]

/-- Parsing the rendered members of a nonempty scalar-valued object (the
first member's leading indentation already skipped) yields exactly those
members and consumes through the closing brace. -/
theorem parseObjectBody_render (fs : List (String × Json)) :
    ∀ (kv : String × Json) (acc : List (String × Json)) (fuel : Nat) (rest : List Char),
      scalarJson kv.2 → (∀ p ∈ fs, scalarJson p.2) → fs.length + 2 ≤ fuel →
      parseObjectBody fuel acc
        (quoteL kv.1 ++ ':' :: ' ' ::
          (renderScalarL kv.2 ++ fieldSep fs ('\n' :: '\x7d' :: rest))) =
        some (Json.obj (acc ++ kv :: fs), rest) := by
  induction fs with
  | nil =>
    intro kv acc fuel rest hkv _ hfuel
    obtain ⟨f, rfl⟩ : ∃ f, fuel = f + 1 := ⟨fuel - 1, by omega⟩
    have hassoc : quoteL kv.1 ++ ':' :: ' ' ::
        (renderScalarL kv.2 ++ fieldSep [] ('\n' :: '\x7d' :: rest)) =
        '"' :: (escList kv.1.data ++ '"' ::
          (':' :: ' ' :: (renderScalarL kv.2 ++ '\n' :: '\x7d' :: rest))) := by
      simp [quoteL, fieldSep, List.append_assoc]
    rw [hassoc, parseObjectBody_step]
    rw [parseJString_escAppend kv.1.data _ _
      (by have := escList_length_le kv.1.data
          simp only [List.length_append, List.length_cons]; omega)]
    have hval := parseValue_renderScalar kv.2 hkv f (by omega)
    simp [skipWs, isWsChar, skipWs_renderScalar kv.2 hkv, hval]
  | cons next fs ih =>
    intro kv acc fuel rest hkv hfs hfuel
    obtain ⟨f, rfl⟩ : ∃ f, fuel = f + 1 := ⟨fuel - 1, by omega⟩
    have hassoc : quoteL kv.1 ++ ':' :: ' ' ::
        (renderScalarL kv.2 ++ fieldSep (next :: fs) ('\n' :: '\x7d' :: rest)) =
        '"' :: (escList kv.1.data ++ '"' ::
          (':' :: ' ' :: (renderScalarL kv.2 ++
            fieldSep (next :: fs) ('\n' :: '\x7d' :: rest)))) := by
      simp [quoteL, List.append_assoc]
    rw [hassoc, parseObjectBody_step]
    rw [parseJString_escAppend kv.1.data _ _
      (by have := escList_length_le kv.1.data
          simp only [List.length_append, List.length_cons]; omega)]
    have hval := parseValue_renderScalar kv.2 hkv f (by omega)
    have hnext : scalarJson next.2 := hfs next (by simp)
    have hfs' : ∀ p ∈ fs, scalarJson p.2 := fun p hp => hfs p (by simp [hp])
    have hrec := ih next (acc ++ [kv]) f rest hnext hfs'
      (by simp only [List.length_cons] at hfuel; omega)
    have hskip : skipWs (renderFieldsL (next :: fs) ++ '\n' :: '\x7d' :: rest) =
        quoteL next.1 ++ ':' :: ' ' ::
          (renderScalarL next.2 ++ fieldSep fs ('\n' :: '\x7d' :: rest)) := by
      rw [renderFields_cons_append, skipWs_renderField]
    have heta : String.mk kv.1.data = kv.1 := rfl
    simp only [fieldSep] at hrec
    simp [skipWs, isWsChar, skipWs_renderScalar kv.2 hkv, hval, fieldSep,
      hskip, heta, hrec, List.append_assoc]

/-- A rendered member is at least one character long. -/
theorem renderFieldL_length_ge (kv : String × Json) : 1 ≤ (renderFieldL kv).length := by
  simp [renderFieldL]

/-- A rendered member list is at least as long as the member list. -/
theorem renderFieldsL_length_ge : ∀ fs : List (String × Json),
    fs.length ≤ (renderFieldsL fs).length := by
  intro fs
  induction fs with
  | nil => simp [renderFieldsL]
  | cons kv rest ih =>
    cases rest with
    | nil =>
      have := renderFieldL_length_ge kv
      simp only [renderFieldsL, List.length_cons, List.length_nil]
      omega
    | cons next r =>
      have h1 := renderFieldL_length_ge kv
      simp only [renderFieldsL, List.length_append, List.length_cons] at ih ⊢
      omega

/-- Parsing the full rendered document of a nonempty scalar-valued object
yields exactly that object. -/
theorem parseJson_renderDoc (kv : String × Json) (fsTail : List (String × Json))
    (hkv : scalarJson kv.2) (hfs : ∀ p ∈ fsTail, scalarJson p.2) :
    parseJson (String.mk ('\x7b' :: '\n' ::
        (renderFieldsL (kv :: fsTail) ++ ['\n', '\x7d']))) =
      some (Json.obj (kv :: fsTail)) := by
  have hlen : fsTail.length + 2 ≤
      ('\x7b' :: '\n' :: (renderFieldsL (kv :: fsTail) ++ ['\n', '\x7d'])).length := by
    have := renderFieldsL_length_ge (kv :: fsTail)
    simp only [List.length_cons, List.length_append] at this ⊢
    omega
  have hskip : skipWs (renderFieldsL (kv :: fsTail) ++ '\n' :: '\x7d' :: ([] : List Char)) =
      quoteL kv.1 ++ ':' :: ' ' ::
        (renderScalarL kv.2 ++ fieldSep fsTail ('\n' :: '\x7d' :: [])) := by
    rw [renderFields_cons_append, skipWs_renderField]
  have hquote : quoteL kv.1 ++ ':' :: ' ' ::
      (renderScalarL kv.2 ++ fieldSep fsTail ('\n' :: '\x7d' :: [])) =
      '"' :: (escList kv.1.data ++ '"' ::
        (':' :: ' ' :: (renderScalarL kv.2 ++ fieldSep fsTail ('\n' :: '\x7d' :: [])))) := by
    simp [quoteL, List.append_assoc]
  have hbody := parseObjectBody_render fsTail kv []
    ('\x7b' :: '\n' :: (renderFieldsL (kv :: fsTail) ++ ['\n', '\x7d'])).length
    [] hkv hfs hlen
  unfold parseJson
  have hdata : (String.mk ('\x7b' :: '\n' ::
      (renderFieldsL (kv :: fsTail) ++ ['\n', '\x7d']))).data =
      '\x7b' :: '\n' :: (renderFieldsL (kv :: fsTail) ++ ['\n', '\x7d']) := rfl
  have hskip0 : skipWs ('\x7b' :: '\n' :: (renderFieldsL (kv :: fsTail) ++ ['\n', '\x7d'])) =
      '\x7b' :: '\n' :: (renderFieldsL (kv :: fsTail) ++ ['\n', '\x7d']) := by
    simp [skipWs, isWsChar]
  have hskipdoc : skipWs ('\n' :: (renderFieldsL (kv :: fsTail) ++ ['\n', '\x7d'])) =
      '"' :: (escList kv.1.data ++ '"' ::
        (':' :: ' ' :: (renderScalarL kv.2 ++ fieldSep fsTail ('\n' :: '\x7d' :: [])))) := by
    have h1 : skipWs ('\n' :: (renderFieldsL (kv :: fsTail) ++ ['\n', '\x7d'])) =
        skipWs (renderFieldsL (kv :: fsTail) ++ ['\n', '\x7d']) := by
      simp [skipWs, isWsChar]
    rw [h1, hskip, hquote]
  rw [hdata, hskip0, parseValue_obj_step, hskipdoc]
  rw [hquote] at hbody
  simp only [List.length_cons, List.length_append, List.length_nil,
    Nat.reduceAdd] at hbody
  simp [hbody, skipWs]

/-- Every value in a serialized user-config member list is a scalar. -/
theorem userConfigJsonFields_scalar (c : UserConfig) :
    ∀ p ∈ userConfigJsonFields c, scalarJson p.2 := by
  intro p hp
  rcases c with ⟨ak, bu, mo, us⟩
  rcases ak with _ | a <;> rcases bu with _ | b <;> rcases mo with _ | m <;>
    simp only [userConfigJsonFields, List.mem_cons, List.mem_append,
      List.mem_singleton, List.not_mem_nil, List.append_nil, List.nil_append,
      or_false, false_or] at hp
  all_goals (repeat' (rcases hp with hp | hp))
  all_goals
    first
      | exact Or.inl ⟨_, rfl⟩
      | exact Or.inr ⟨_, rfl⟩

/-- Parsing the exact text `saveUserConfig` writes recovers the serialized
member list: `JSON.parse` inverts `JSON.stringify` on user configs. -/
theorem parseJson_stringifyUserConfig (c : UserConfig) :
    parseJson (stringifyUserConfig c) = some (Json.obj (userConfigJsonFields c)) := by
  have hsc := userConfigJsonFields_scalar c
  have hhead : scalarJson (Json.bool c.useSystemDefaults) := Or.inl ⟨_, rfl⟩
  have htail : ∀ p ∈ ((match c.apiKey with
      | some s => [("apiKey", Json.str s)]
      | none => []) ++
     (match c.baseUrl with
      | some s => [("baseUrl", Json.str s)]
      | none => []) ++
     (match c.model with
      | some s => [("model", Json.str s)]
      | none => [])), scalarJson p.2 := by
    intro p hp
    exact hsc p (List.mem_cons_of_mem _ hp)
  exact parseJson_renderDoc ("useSystemDefaults", Json.bool c.useSystemDefaults) _ hhead htail

/-- Reading the interface fields back out of a serialized user config
recovers every field, the apiKey included. -/
theorem userConfigOfJson_fields (c : UserConfig) :
    userConfigOfJson (Json.obj (userConfigJsonFields c)) = some c := by
  rcases c with ⟨ak, bu, mo, us⟩
  rcases ak with _ | a <;> rcases bu with _ | b <;> rcases mo with _ | m <;>
    simp [userConfigOfJson, userConfigJsonFields, jsonLookup, asBool, asString]

/-- Claim C9: after `saveUserConfig config`, a `getUserConfig` with no
intervening write succeeds without any warning, and reading the parsed
document through the `UserConfig` interface returns a config equal to the
one saved — in particular the apiKey is stored in, and comes back from,
the file unmasked. -/
theorem saveUserConfig_getUserConfig_roundtrip (config : UserConfig) (st : Option String) :
    getUserConfig (saveUserConfig config st) =
      (some (Json.obj (userConfigJsonFields config)), false) ∧
    (getUserConfig (saveUserConfig config st)).1.bind userConfigOfJson = some config := by
  have hp := parseJson_stringifyUserConfig config
  constructor
  · simp [getUserConfig, saveUserConfig, hp]
  · simp [getUserConfig, saveUserConfig, hp, userConfigOfJson_fields]
